import Mathlib

/-!
Verification development for the YC insight-extraction pipeline
(`src/transcript/*.py`).  Each Python function relevant to the
documented behaviour is translated into an executable Lean definition;
external collaborators (the downloader, the media prober, the
transcription and chat endpoints, and the JSON codec of the standard
library) enter as explicit oracle parameters.  Numbers that Python
holds as `int`/`float` are modelled as `ℚ` where fractional durations
matter and as `ℕ` for second counts.
-/

namespace YCIE

/-! ### Fixed-length audio segmentation (`split_audio.py`, `split_by_length`)

The Python loop `while start < duration: … start += chunk_duration -
overlap` is modelled with an explicit fuel parameter; `none` means the
fuel was exhausted while the loop guard still held, so termination of
the source loop corresponds to `∃ fuel, (… fuel).isSome`.  The probed
`duration` and the `chunk_duration`/`overlap` arguments become `ℚ`. -/

/-- One segment: the loop's `start` and `end = min (start + chunk_duration) duration`. -/
def segLoop (D C O : ℚ) : ℕ → ℚ → Option (List (ℚ × ℚ))
  | 0, start => if start < D then none else some []
  | fuel + 1, start =>
    if start < D then
      (segLoop D C O fuel (start + (C - O))).map
        (fun rest => (start, min (start + C) D) :: rest)
    else
      some []

/-- Model of `split_by_length`: run the cutting loop from `start = 0`. -/
def split_by_length (D C O : ℚ) (fuel : ℕ) : Option (List (ℚ × ℚ)) :=
  segLoop D C O fuel 0

/-- Default `chunk_duration` of `split_by_length`. -/
def chunkDurationDefault : ℚ := 1200

/-- Default `overlap` of `split_by_length`. -/
def overlapDefault : ℚ := 200

/-! ### Chapter parsing (`split_audio.py`, `parse_chapters_from_description`)

The description scanner applies the anchored regular expression
`(?P<time>\d\x7b1,2\x7d:\d\x7b2\x7d(?::\d\x7b2\x7d)?)\s*[-–—]?\s*(?P<title>.+)`
to every stripped line.  The regex engine's left-to-right backtracking
search is modelled by enumerating the alternatives of each quantifier in
the engine's priority order (greedy: longest first; optional group:
present first) and taking the first alternative under which the rest of
the pattern matches. -/

/-- Python `str.isspace`-style whitespace, the characters matched by `\s`
for ASCII text (the inputs in this repository are ASCII). -/
def isPySpace (c : Char) : Bool :=
  c = ' ' || c = '\t' || c = '\n' || c = '\r' || c = '\x0b' || c = '\x0c'

/-- Python `str.strip` on a character list. -/
def pyStrip (cs : List Char) : List Char :=
  ((cs.dropWhile isPySpace).reverse.dropWhile isPySpace).reverse

/-- Python `str.strip` on a string. -/
def pyStripStr (s : String) : String := (pyStrip s.data).asString

/-- Characters of the regex class `[-–—]`. -/
def isDash (c : Char) : Bool := c = '-' || c = '–' || c = '—'

/-- Numeric value of a decimal digit character (`int` of the digit). -/
def dval (c : Char) : ℕ := c.toNat - '0'.toNat

/-- Alternatives for `\d\x7b1,2\x7d` in the engine's greedy priority
order: two digits before one digit; result value and remaining input. -/
def digitCands : List Char → List (ℕ × List Char)
  | [] => []
  | [a] => if a.isDigit then [(dval a, [])] else []
  | a :: b :: rest =>
    if a.isDigit && b.isDigit then
      [(dval a * 10 + dval b, rest), (dval a, b :: rest)]
    else if a.isDigit then
      [(dval a, b :: rest)]
    else []

/-- Regex `\d\x7b2\x7d`: exactly two digits. -/
def twoDigits : List Char → Option (ℕ × List Char)
  | a :: b :: rest =>
    if a.isDigit && b.isDigit then some (dval a * 10 + dval b, rest) else none
  | _ => none

/-- Alternatives for the whole `time` group, already converted to
seconds the way `parse_chapters_from_description` converts the split
parts: `M*60+S` for two parts, `H*3600+M*60+S` for three.  The optional
`(?::\d\x7b2\x7d)?` is tried present-first (greedy). -/
def timeCands (cs : List Char) : List (ℕ × List Char) :=
  (digitCands cs).bind fun dc =>
    match dc.2 with
    | ':' :: r2 =>
      match twoDigits r2 with
      | some sd =>
        (match sd.2 with
         | ':' :: r4 =>
           match twoDigits r4 with
           | some td => [(dc.1 * 3600 + sd.1 * 60 + td.1, td.2)]
           | none => []
         | _ => []) ++ [(dc.1 * 60 + sd.1, sd.2)]
      | none => []
    | _ => []

/-- Alternatives for `\s*`, greedy priority order: drop the longest
whitespace run first, down to dropping nothing. -/
def wsRests : List Char → List (List Char)
  | [] => [[]]
  | c :: rest =>
    if isPySpace c then wsRests rest ++ [c :: rest] else [c :: rest]

/-- Alternatives for `[-–—]?`: consume the dash first if present. -/
def dashOpts : List Char → List (List Char)
  | [] => [[]]
  | c :: rest => if isDash c then [rest, c :: rest] else [c :: rest]

/-- First successful alternative, in priority order. -/
def firstSome {α : Type} : List (Option α) → Option α
  | [] => none
  | o :: rest =>
    match o with
    | some x => some x
    | none => firstSome rest

/-- Regex `(?P<title>.+)`: the greedy capture of at least one non-newline
character; nothing follows it in the pattern, so it takes everything up
to the end of the line. -/
def titleAt (cs : List Char) : Option (List Char) :=
  let t := cs.takeWhile (fun c => !(c = '\n'))
  if t.isEmpty then none else some t

/-- Match `\s*[-–—]?\s*(?P<title>.+)` against the rest of the line,
returning the title capture of the first successful alternative. -/
def sepTitle (cs : List Char) : Option (List Char) :=
  firstSome
    ((wsRests cs).bind fun r1 =>
      (dashOpts r1).bind fun r2 =>
        (wsRests r2).map titleAt)

/-- Model of `pattern.match` of the chapter regex on one (already stripped) line:
the seconds value of the time group together with the title capture. -/
def matchLine (cs : List Char) : Option (ℕ × List Char) :=
  firstSome ((timeCands cs).map fun tc => (sepTitle tc.2).map fun t => (tc.1, t))

/-- Python `str.splitlines` for newline-separated text (the descriptions
in this repository use `\n` line terminators). -/
def splitOnNL : List Char → List (List Char)
  | [] => [[]]
  | c :: rest =>
    match splitOnNL rest with
    | [] => [[c]]
    | l :: ls => if c = '\n' then [] :: l :: ls else (c :: l) :: ls

/-- Model of `parse_chapters_from_description`: scan every line, strip it, match
the chapter regex, and collect `(seconds, stripped title)` pairs in line
order. -/
def parse_chapters_from_description (description : String) : List (ℕ × String) :=
  (splitOnNL description.data).filterMap fun line =>
    (matchLine (pyStrip line)).map fun st => (st.1, (pyStrip st.2).asString)

/-- One chapter record of the shape built in `get_chapters` (its
description fallback): start offset, optional end offset, title. -/
structure Chapter where
  start_time : ℕ
  end_time : Option ℕ
  title : String
deriving DecidableEq, Repr

/-- The loop of `get_chapters` lines 72–78: each raw chapter's end time
is the next raw chapter's start time, the last one's is `None`. -/
def toChapterList : List (ℕ × String) → List Chapter
  | [] => []
  | c :: rest => ⟨c.1, rest.head?.map Prod.fst, c.2⟩ :: toChapterList rest

/-- Chapters derived from a description text (the fallback path of
`get_chapters`). -/
def descChapters (description : String) : List Chapter :=
  toChapterList (parse_chapters_from_description description)

/-! ### JSON values

Values of the standard `json` module: `json.loads` enters the model as
an oracle `String → Option Json` (`none` models a raised
`JSONDecodeError`), and Python dictionaries of JSON data are association
lists. -/

/-- A parsed JSON value. -/
inductive Json where
  | null
  | bool (b : Bool)
  | num (n : Int)
  | str (s : String)
  | arr (elems : List Json)
  | obj (fields : List (String × Json))

/-- Python `dict.get(key, default)` on a JSON object's fields. -/
def dictGet : List (String × Json) → String → Json → Json
  | [], _, d => d
  | kv :: rest, k, d => if kv.1 = k then kv.2 else dictGet rest k d

/-- The `video_id` value stored in the result dictionaries: the string
when the optional argument was passed, JSON `null` for Python `None`. -/
def jsonOfOpt : Option String → Json
  | some s => Json.str s
  | none => Json.null

/-! ### Insight extraction (`extract_insights.py`,
`extract_insights_from_transcript`)

The chat endpoint is an oracle `String → Except String String` mapping
the user message to either the reply content (`.ok`) or a raised
exception's message (`.error`); the function's catch-all `except` turns
the latter into the error record.  Results are the literal Python
dictionaries, as association lists. -/

/-- Python `str.startswith` on character lists. -/
def startsWithL (p s : List Char) : Bool := p.isPrefixOf s

/-- Python `str.endswith` on character lists. -/
def endsWithL (p s : List Char) : Bool := p.reverse.isPrefixOf s.reverse

/-- The response post-processing of `extract_insights_from_transcript`
lines 62–72: strip the content, drop a leading triple-backtick-json
fence, then a leading triple-backtick fence, then a trailing
triple-backtick fence, and strip again. -/
def cleanResponse (content : String) : String :=
  let a := pyStrip content.data
  let b := if startsWithL "```json".data a then a.drop 7 else a
  let c := if startsWithL "```".data b then b.drop 3 else b
  let d := if endsWithL "```".data c then c.take (c.length - 3) else c
  (pyStrip d).asString

/-- The parse-failure fallback dictionary (the inner `except
json.JSONDecodeError` branch). -/
def fallbackFields (raw : String) (video_id : Option String) : List (String × Json) :=
  [("summary", Json.str "Failed to parse insights as JSON"),
   ("insights", Json.arr []),
   ("golden_nuggets", Json.arr []),
   ("video_id", jsonOfOpt video_id),
   ("raw_response", Json.str raw)]

/-- Parsing of a chat reply (lines 62–94): clean the content, parse it;
a dictionary yields the normalised record via `dict.get` defaults, and
anything else — including a parse error — yields the fallback record
carrying the cleaned text. -/
def parseInsightResponse (loads : String → Option Json) (content : String)
    (video_id : Option String) : List (String × Json) :=
  match loads (cleanResponse content) with
  | some (Json.obj fields) =>
    [("summary", dictGet fields "summary" (Json.str "No summary provided")),
     ("insights", dictGet fields "insights" (Json.arr [])),
     ("golden_nuggets", dictGet fields "golden_nuggets" (Json.arr [])),
     ("video_id", jsonOfOpt video_id)]
  | _ => fallbackFields (cleanResponse content) video_id

/-- Model of `extract_insights_from_transcript`: call the chat endpoint
on the transcript; its reply goes through `parseInsightResponse`, and a
raised exception is caught by the outer catch-all and becomes the error
record. -/
def extract_insights_from_transcript (chat : String → Except String String)
    (loads : String → Option Json) (transcript_text : String)
    (video_id : Option String) : List (String × Json) :=
  match chat transcript_text with
  | Except.ok content => parseInsightResponse loads content video_id
  | Except.error e =>
    [("summary", Json.str ("Error extracting insights: " ++ e)),
     ("insights", Json.arr []),
     ("golden_nuggets", Json.arr []),
     ("video_id", jsonOfOpt video_id),
     ("error", Json.str e)]

/-- Key presence in a result dictionary. -/
def hasKey (r : List (String × Json)) (k : String) : Bool :=
  r.any fun kv => kv.1 = k

/-! ### Chapter resolution (`split_audio.py`, `get_chapters`)

The platform probe (`yt-dlp --print %(chapters_json)s`) is an oracle
`Except Unit String`: `.error` is a raised exception (caught and
logged), `.ok` carries the subprocess's stdout.  The metadata file's
`snippet.description` field enters as an `Option String` (`none` when
the metadata file does not exist). -/

/-- Result of `get_chapters`: the parsed native chapter JSON, the
chapter list built from the description, or `None`. -/
inductive ChaptersResult where
  | native (j : Json)
  | fromDescription (cs : List Chapter)
  | noChapters

/-- The `try` block of `get_chapters`: a native chapter value is
obtained when the probe did not raise, its stripped stdout is neither
empty nor the literal `"None"`, and the JSON codec parses it. -/
def nativeProbe (loads : String → Option Json) (ytdlp : Except Unit String) :
    Option Json :=
  match ytdlp with
  | Except.error _ => none
  | Except.ok out0 =>
    let out := pyStripStr out0
    if out ≠ "" ∧ out ≠ "None" then loads out else none

/-- Model of `get_chapters`: native probe first; otherwise the
description scan, whose nonempty chapter list is returned (else `None`). -/
def get_chapters (loads : String → Option Json) (ytdlp : Except Unit String)
    (description : Option String) : ChaptersResult :=
  match nativeProbe loads ytdlp with
  | some j => ChaptersResult.native j
  | none =>
    match description with
    | none => ChaptersResult.noChapters
    | some d =>
      if (descChapters d).isEmpty then ChaptersResult.noChapters
      else ChaptersResult.fromDescription (descChapters d)

/-! ### Chunk transcription (`transcribe_chunks.py`,
`transcribe_audio_chunks`)

The transcription endpoint is an oracle from the chunk path to either
the transcript text or a raised exception's message; the source loop
appends the text on success and the empty string on failure. -/

/-- Model of `transcribe_audio_chunks`. -/
def transcribe_audio_chunks (transcribe : String → Except String String)
    (chunk_files : List String) : List String :=
  chunk_files.map fun p =>
    match transcribe p with
    | Except.ok t => t
    | Except.error _ => ""

/-! ### Pipeline control flow (`pipeline.py`,
`VideoProcessingPipeline.process_single_video`)

The per-stage file-existence checks and the outcomes of the external
calls enter as an environment record: `Bool` fields for
`Path.exists`/glob checks, `Except` fields for calls whose exceptions
the source catches per stage.  The result mirrors the `result` dict:
its `status`, its `steps` entries in insertion order, and its `errors`
list. -/

/-- Existence checks and external-call outcomes for one video. -/
structure StageEnv where
  audioExists : Bool
  downloadOk : Bool
  chunkFilesExist : Bool
  chunkMetadataExists : Bool
  splitResult : Except String (List String)
  chunkTranscriptsDirExists : Bool
  existingTranscriptsExist : Bool
  transcribeResult : Except String (List String)
  transcriptExists : Bool
  assembleResult : Except String String
  insightsExist : Bool
  insightsResult : Except String Unit

/-- The mutable `result` dict of `process_single_video`. -/
structure RunResult where
  status : String
  steps : List (String × String)
  errors : List String

/-- Step 5 of `process_single_video`: insight extraction; its failure is
recorded but does not fail the video, and the function then sets status
`completed`. -/
def insightsStep (env : StageEnv) (force : Bool) (r : RunResult) : RunResult :=
  if env.insightsExist && !force then
    ⟨"completed", r.steps ++ [("insights", "skipped")], r.errors⟩
  else
    match env.insightsResult with
    | Except.ok _ => ⟨"completed", r.steps ++ [("insights", "success")], r.errors⟩
    | Except.error e =>
      ⟨"completed", r.steps ++ [("insights", "failed")],
        r.errors ++ ["Failed to extract insights: " ++ e]⟩

/-- Step 4: transcript assembly; failure returns immediately with
status `failed`. -/
def assembleStep (env : StageEnv) (force : Bool) (r : RunResult) : RunResult :=
  if env.transcriptExists && !force then
    insightsStep env force ⟨r.status, r.steps ++ [("assemble", "skipped")], r.errors⟩
  else
    match env.assembleResult with
    | Except.ok _ =>
      insightsStep env force ⟨r.status, r.steps ++ [("assemble", "success")], r.errors⟩
    | Except.error e =>
      ⟨"failed", r.steps ++ [("assemble", "failed")],
        r.errors ++ ["Failed to assemble transcript: " ++ e]⟩

/-- Step 3: transcription.  The skip needs the chunk-transcripts
directory to exist and to contain transcript files; both
transcribe-paths of the source behave identically. -/
def transcribeStep (env : StageEnv) (force : Bool) (r : RunResult) : RunResult :=
  if env.chunkTranscriptsDirExists && env.existingTranscriptsExist && !force then
    assembleStep env force ⟨r.status, r.steps ++ [("transcribe", "skipped")], r.errors⟩
  else
    match env.transcribeResult with
    | Except.ok _ =>
      assembleStep env force ⟨r.status, r.steps ++ [("transcribe", "success")], r.errors⟩
    | Except.error e =>
      ⟨"failed", r.steps ++ [("transcribe", "failed")],
        r.errors ++ ["Failed to transcribe: " ++ e]⟩

/-- Step 2: audio splitting; the skip needs the `_chunk_` glob to be
nonempty and the metadata JSON to exist. -/
def splitStep (env : StageEnv) (force : Bool) (r : RunResult) : RunResult :=
  if env.chunkFilesExist && env.chunkMetadataExists && !force then
    transcribeStep env force ⟨r.status, r.steps ++ [("split", "skipped")], r.errors⟩
  else
    match env.splitResult with
    | Except.ok _ =>
      transcribeStep env force ⟨r.status, r.steps ++ [("split", "success")], r.errors⟩
    | Except.error e =>
      ⟨"failed", r.steps ++ [("split", "failed")],
        r.errors ++ ["Failed to split audio: " ++ e]⟩

/-- Step 1: audio download; `download_audio` returns a boolean, `False`
fails the video. -/
def downloadStep (env : StageEnv) (force : Bool) (r : RunResult) : RunResult :=
  if !env.audioExists || force then
    if env.downloadOk then
      splitStep env force ⟨r.status, r.steps ++ [("download", "success")], r.errors⟩
    else
      ⟨"failed", r.steps ++ [("download", "failed")],
        r.errors ++ ["Failed to download audio"]⟩
  else
    splitStep env force ⟨r.status, r.steps ++ [("download", "skipped")], r.errors⟩

/-- Model of `process_single_video`: the five stages in order, starting
from the fresh `result` dict. -/
def process_single_video (env : StageEnv) (force : Bool) : RunResult :=
  downloadStep env force ⟨"processing", [], []⟩

/-! ### Per-stage frame effects (`pipeline.py` stage guards)

For the skip-if-exists behaviour the stages are modelled over an
explicit state: an association list of files (path to bytes), the set
of directories, and the trace of subprocess/network effects performed
so far.  The guards are the source's checks verbatim, including the
`glob(f"\x7bvideo_id\x7d_chunk_*.mp3")` pattern of the split stage; a
stage body appends the external calls the source makes (the
unconditional chapter probe of `split_audio_file`, the transcription
and chat services), with the payloads the external world would return
supplied by an oracle record. -/

/-- One observable side effect: a subprocess invocation or a network
call. -/
inductive Eff where
  | subproc (cmd : String)
  | network (svc : String)
deriving DecidableEq

/-- Local files (path to bytes), directories, and the effect trace. -/
structure FSState where
  files : List (String × String)
  dirs : List String
  effs : List Eff
deriving DecidableEq

/-- Path existence check (`Path.exists` on a file). -/
def fileExists (files : List (String × String)) (p : String) : Bool :=
  files.any fun kv => kv.1 = p

/-- Write (create or overwrite) one file. -/
def writeFile (files : List (String × String)) (p c : String) :
    List (String × String) :=
  (files.filter fun kv => kv.1 != p) ++ [(p, c)]

/-- Python `mkdir(exist_ok=True)`. -/
def mkdirP (dirs : List String) (d : String) : List String :=
  if d ∈ dirs then dirs else dirs ++ [d]

/-- The per-video audio artifact `data/audio/<id>.mp3`. -/
def audioPath (vid : String) : String := "data/audio/" ++ vid ++ ".mp3"

/-- The per-video chunk directory `data/audio_chunks/<id>`. -/
def chunksDirOf (vid : String) : String := "data/audio_chunks/" ++ vid

/-- The chunk-metadata artifact `<id>_chunks_metadata.json`. -/
def chunkMetaPath (vid : String) : String :=
  chunksDirOf vid ++ "/" ++ vid ++ "_chunks_metadata.json"

/-- The per-video chunk-transcripts directory. -/
def ctDirOf (vid : String) : String := "data/chunk_transcripts/" ++ vid

/-- The assembled-transcript artifact. -/
def transcriptPath (vid : String) : String := "data/raw_transcripts/" ++ vid ++ ".txt"

/-- The insight artifact. -/
def insightsPath (vid : String) : String := "data/insights/" ++ vid ++ "_insights.json"

/-- Glob of the form `<pre>*<suf>`. -/
def globMatch (pre suf p : String) : Bool :=
  startsWithL pre.data p.data && endsWithL suf.data p.data

/-- The split-stage check `chunks_dir.glob(f"\x7bvideo_id\x7d_chunk_*.mp3")`:
only fixed-length chunk names match. -/
def chunkGlob (files : List (String × String)) (vid : String) : List String :=
  (files.map Prod.fst).filter fun p =>
    globMatch (chunksDirOf vid ++ "/" ++ vid ++ "_chunk_") ".mp3" p

/-- The transcribe-stage check
`chunk_transcripts_dir.glob(f"\x7bvideo_id\x7d_chunk_*.txt")`. -/
def txtGlob (files : List (String × String)) (vid : String) : List String :=
  (files.map Prod.fst).filter fun p =>
    globMatch (ctDirOf vid ++ "/" ++ vid ++ "_chunk_") ".txt" p

/-- Payloads and effects of the stage bodies, determined by the
external world (downloader outcome, cut files, service calls). -/
structure ExtWorld where
  downloadOk : Bool
  audioBytes : String
  splitEffs : List Eff
  splitWrites : List (String × String)
  assembleText : String
  insightsBytes : String

/-- Download stage: the pipeline's guard, then `download_audio` (which
itself returns at once when the file exists, else invokes the
downloader subprocess). -/
def downloadStage (w : ExtWorld) (vid : String) (force : Bool) (st : FSState) :
    FSState × String :=
  if fileExists st.files (audioPath vid) && !force then
    (st, "skipped")
  else if fileExists st.files (audioPath vid) then
    (st, "success")
  else
    let st1 : FSState := ⟨st.files, st.dirs, st.effs ++ [Eff.subproc "yt-dlp"]⟩
    if w.downloadOk then
      (⟨writeFile st1.files (audioPath vid) w.audioBytes, st1.dirs, st1.effs⟩, "success")
    else
      (st1, "failed")

/-- Split stage: `mkdir`, the `_chunk_` glob plus metadata guard; the
body is `split_audio_file`, whose first action is the unconditional
chapter-probe subprocess, followed by the prober/cutter calls and chunk
writes the external world determines. -/
def splitStage (w : ExtWorld) (vid : String) (force : Bool) (st : FSState) :
    FSState × String :=
  let st0 : FSState := ⟨st.files, mkdirP st.dirs (chunksDirOf vid), st.effs⟩
  if !(chunkGlob st0.files vid).isEmpty &&
      fileExists st0.files (chunkMetaPath vid) && !force then
    (st0, "skipped")
  else
    (⟨w.splitWrites.foldl (fun fs pc => writeFile fs pc.1 pc.2) st0.files,
      st0.dirs,
      st0.effs ++ [Eff.subproc "yt-dlp --print chapters_json"] ++ w.splitEffs⟩, "ran")

/-- Transcribe stage: directory-plus-transcripts guard; the body calls
the transcription service over the network (the pipeline keeps the
texts in memory, writing nothing). -/
def transcribeStage (vid : String) (force : Bool) (st : FSState) :
    FSState × String :=
  if st.dirs.contains (ctDirOf vid) && !(txtGlob st.files vid).isEmpty && !force then
    (st, "skipped")
  else
    (⟨st.files, st.dirs, st.effs ++ [Eff.network "transcription"]⟩, "ran")

/-- Assemble stage: transcript-exists guard; the body concatenates in
memory and writes the transcript artifact (no subprocess or network
call). -/
def assembleStage (w : ExtWorld) (vid : String) (force : Bool) (st : FSState) :
    FSState × String :=
  if fileExists st.files (transcriptPath vid) && !force then
    (st, "skipped")
  else
    (⟨writeFile st.files (transcriptPath vid) w.assembleText, st.dirs, st.effs⟩, "ran")

/-- Insights stage: insights-exist guard; the body calls the chat
service and writes the insight artifact. -/
def insightsStage (w : ExtWorld) (vid : String) (force : Bool) (st : FSState) :
    FSState × String :=
  if fileExists st.files (insightsPath vid) && !force then
    (st, "skipped")
  else
    (⟨writeFile st.files (insightsPath vid) w.insightsBytes, st.dirs,
      st.effs ++ [Eff.network "chat"]⟩, "ran")

/-- A state holding only chapter-named segment files and the chunk
metadata for video `v`. -/
def chapterOnlyState : FSState :=
  ⟨[("data/audio_chunks/v/v_chapter_0_intro.mp3", "SEG"),
    ("data/audio_chunks/v/v_chunks_metadata.json", "META")],
   ["data/audio_chunks/v"], []⟩

/-- A fixed external world for concrete runs. -/
def sampleWorld : ExtWorld := ⟨true, "A", [], [], "T", "I"⟩

/-- A state in which every stage's output artifacts exist for video
`v`. -/
def allArtifactsState : FSState :=
  ⟨[(audioPath "v", "A"),
    ("data/audio_chunks/v/v_chunk_0.mp3", "C"),
    (chunkMetaPath "v", "M"),
    ("data/chunk_transcripts/v/v_chunk_0.txt", "T"),
    (transcriptPath "v", "TR"),
    (insightsPath "v", "I")],
   [chunksDirOf "v", ctDirOf "v"], []⟩

/-! ### Properties

The lemmas and claim theorems over the definitions above. -/

lemma segLoop_none_of_step_nonpos (D C O : ℚ) (hstep : C - O ≤ 0) :
    ∀ (fuel : ℕ) (start : ℚ), start < D → segLoop D C O fuel start = none := by
  intro fuel
  induction fuel with
  | zero =>
    intro start h
    simp [segLoop, h]
  | succ f ih =>
    intro start h
    have h' : start + (C - O) < D := by linarith
    simp [segLoop, h, ih _ h']

lemma segLoop_sound (D C O : ℚ) (hstep : 0 < C - O) :
    ∀ (fuel : ℕ) (start : ℚ), D ≤ start + fuel * (C - O) →
      ∃ L, segLoop D C O fuel start = some L ∧
        (∀ i : ℕ, ∀ hi : i < L.length,
            L.get ⟨i, hi⟩ = (start + i * (C - O), min (start + i * (C - O) + C) D)) ∧
        (∀ i : ℕ, i < L.length ↔ start + i * (C - O) < D) := by
  intro fuel
  induction fuel with
  | zero =>
    intro start hle
    refine ⟨[], ?_, ?_, ?_⟩
    · have : ¬ start < D := by push_cast at hle; linarith
      simp [segLoop, this]
    · intro i hi; simp at hi
    · intro i
      simp only [List.length_nil]
      constructor
      · intro h; omega
      · intro h
        exfalso
        have hnn : (0:ℚ) ≤ i * (C - O) := by positivity
        push_cast at hle
        linarith
  | succ f ih =>
    intro start hle
    by_cases hlt : start < D
    · have hle' : D ≤ (start + (C - O)) + f * (C - O) := by
        push_cast at hle ⊢; linarith
      obtain ⟨L', hL', hget, hiff⟩ := ih (start + (C - O)) hle'
      refine ⟨(start, min (start + C) D) :: L', ?_, ?_, ?_⟩
      · simp [segLoop, hlt, hL']
      · intro i hi
        cases i with
        | zero => simp
        | succ j =>
          have hj : j < L'.length := by simpa using hi
          have := hget j hj
          simp only [List.get_cons_succ]
          rw [this]
          simp only [Prod.mk.injEq]
          constructor
          · push_cast; ring
          · congr 1; push_cast; ring
      · intro i
        cases i with
        | zero =>
          simp only [List.length_cons]
          constructor
          · intro _; simpa using hlt
          · intro _; omega
        | succ j =>
          have := hiff j
          simp only [List.length_cons, Nat.succ_lt_succ_iff]
          rw [this]
          constructor <;> intro h <;> [skip; skip] <;> push_cast at h ⊢ <;> linarith
    · refine ⟨[], ?_, ?_, ?_⟩
      · simp [segLoop, hlt]
      · intro i hi; simp at hi
      · intro i
        simp only [List.length_nil]
        constructor
        · intro h; omega
        · intro h
          exfalso
          have hnn : (0:ℚ) ≤ i * (C - O) := by positivity
          have : D ≤ start := le_of_not_lt hlt
          linarith

/-- C1: for every duration `D > 0`, fixed-length segmentation with chunk
size `C` and (nonnegative) overlap `O < C` yields segments whose start
times are exactly `0, C-O, 2(C-O), …` — one segment for each such start
strictly below `D` — with each end `min (start + C) D`; the list is
nonempty and the last segment's end is exactly `D` (so the final segment
may be shorter than the nominal duration `C`). -/
theorem split_by_length_spec (D C O : ℚ) (hD : 0 < D) (hO : 0 ≤ O) (hOC : O < C) :
    ∃ (fuel : ℕ) (L : List (ℚ × ℚ)),
      split_by_length D C O fuel = some L ∧
      (∀ i : ℕ, ∀ hi : i < L.length,
          L.get ⟨i, hi⟩ = (i * (C - O), min (i * (C - O) + C) D)) ∧
      (∀ i : ℕ, i < L.length ↔ (i : ℚ) * (C - O) < D) ∧
      L ≠ [] ∧
      ∀ hne : L ≠ [], (L.getLast hne).2 = D := by
  have hstep : 0 < C - O := by linarith
  obtain ⟨fuel, hfuel⟩ : ∃ fuel : ℕ, D ≤ (fuel : ℚ) * (C - O) := by
    obtain ⟨n, hn⟩ := exists_nat_gt (D / (C - O))
    refine ⟨n, ?_⟩
    have := (div_le_iff hstep).mp (le_of_lt hn)
    linarith
  obtain ⟨L, hL, hget, hiff⟩ := segLoop_sound D C O hstep fuel 0 (by simpa using hfuel)
  have hget0 : ∀ i : ℕ, ∀ hi : i < L.length,
      L.get ⟨i, hi⟩ = (i * (C - O), min (i * (C - O) + C) D) := by
    intro i hi
    have := hget i hi
    simpa using this
  have hiff0 : ∀ i : ℕ, i < L.length ↔ (i : ℚ) * (C - O) < D := by
    intro i
    have := hiff i
    simpa using this
  have hne : L ≠ [] := by
    have : 0 < L.length := (hiff0 0).mpr (by simpa using hD)
    exact List.ne_nil_of_length_pos this
  refine ⟨fuel, L, hL, hget0, hiff0, hne, ?_⟩
  intro hne'
  have hpos : 0 < L.length := List.length_pos.mpr hne'
  have hlast : L.getLast hne' = L.get ⟨L.length - 1, by omega⟩ := by
    simp [List.getLast_eq_get]
  set n := L.length with hn
  have hidx : n - 1 < L.length := by omega
  have := hget0 (n - 1) hidx
  rw [hlast, this]
  have hnotlt : ¬ ((n : ℚ) * (C - O) < D) := by
    intro hcon
    have := (hiff0 n).mpr hcon
    omega
  have hcast : ((n - 1 : ℕ) : ℚ) = (n : ℚ) - 1 := by
    have : 1 ≤ n := by omega
    push_cast [this]
    ring
  have hge : D ≤ ((n - 1 : ℕ) : ℚ) * (C - O) + C := by
    rw [hcast]
    have hDle : D ≤ (n : ℚ) * (C - O) := le_of_not_lt hnotlt
    nlinarith
  simp [min_eq_right hge]

/-- Witness for `split_by_length_spec` at `D = 2500` with the default
chunk size and overlap. -/
theorem split_by_length_spec_witness :
    (0:ℚ) < 2500 ∧ (0:ℚ) ≤ 200 ∧ (200:ℚ) < 1200 ∧
    (∃ (fuel : ℕ) (L : List (ℚ × ℚ)),
      split_by_length 2500 1200 200 fuel = some L ∧
      (∀ i : ℕ, ∀ hi : i < L.length,
          L.get ⟨i, hi⟩ = ((i : ℚ) * (1200 - 200), min ((i : ℚ) * (1200 - 200) + 1200) 2500)) ∧
      (∀ i : ℕ, i < L.length ↔ (i : ℚ) * (1200 - 200) < 2500) ∧
      L ≠ [] ∧
      ∀ hne : L ≠ [], (L.getLast hne).2 = 2500) :=
  ⟨by norm_num, by norm_num, by norm_num,
    split_by_length_spec 2500 1200 200 (by norm_num) (by norm_num) (by norm_num)⟩

/-- C9: for every duration `D > 0`, the cutting loop of `split_by_length`
terminates (some finite fuel suffices) if and only if the chunk duration
strictly exceeds the overlap; with `overlap ≥ chunk_duration` the start
never advances past `D` and no amount of fuel completes the loop. -/
theorem split_by_length_terminates_iff (D C O : ℚ) (hD : 0 < D) :
    (∃ fuel : ℕ, (split_by_length D C O fuel).isSome) ↔ O < C := by
  constructor
  · intro ⟨fuel, hfuel⟩
    by_contra hnot
    have hstep : C - O ≤ 0 := by linarith [le_of_not_lt hnot]
    have := segLoop_none_of_step_nonpos D C O hstep fuel 0 hD
    rw [split_by_length] at hfuel
    rw [this] at hfuel
    simp at hfuel
  · intro hOC
    have hstep : 0 < C - O := by linarith
    obtain ⟨fuel, hfuel⟩ : ∃ fuel : ℕ, D ≤ (fuel : ℚ) * (C - O) := by
      obtain ⟨n, hn⟩ := exists_nat_gt (D / (C - O))
      refine ⟨n, ?_⟩
      have := (div_le_iff hstep).mp (le_of_lt hn)
      linarith
    obtain ⟨L, hL, -, -⟩ := segLoop_sound D C O hstep fuel 0 (by simpa using hfuel)
    exact ⟨fuel, by simp [split_by_length, hL]⟩

/-- Witness for `split_by_length_terminates_iff` at the default
parameters and `D = 100`. -/
theorem split_by_length_terminates_iff_witness :
    (0:ℚ) < 100 ∧
    ((∃ fuel : ℕ, (split_by_length 100 1200 200 fuel).isSome) ↔ (200:ℚ) < 1200) :=
  ⟨by norm_num, split_by_length_terminates_iff 100 1200 200 (by norm_num)⟩

lemma toChapterList_getElem? (l : List (ℕ × String)) (i : ℕ) :
    (toChapterList l)[i]? =
      (l[i]?).map fun c => (⟨c.1, (l[i+1]?).map Prod.fst, c.2⟩ : Chapter) := by
  induction l generalizing i with
  | nil => simp [toChapterList]
  | cons c rest ih =>
    cases i with
    | zero => cases rest <;> simp [toChapterList]
    | succ j => simpa [toChapterList] using ih j

/-- C2 counterexample: the derived start offsets are not monotonically
non-decreasing for every description; the description whose timestamp
lines appear out of order, `"5:30 Demo\n0:00 Intro"`, yields starts
`330, 0`. -/
theorem descChapters_monotone_counterexample :
    descChapters "5:30 Demo\n0:00 Intro" =
      [⟨330, some 0, "Demo"⟩, ⟨0, none, "Intro"⟩] ∧
    ¬ (∀ i : ℕ, ∀ a b : Chapter,
        (descChapters "5:30 Demo\n0:00 Intro")[i]? = some a →
        (descChapters "5:30 Demo\n0:00 Intro")[i+1]? = some b →
        a.start_time ≤ b.start_time) := by
  constructor
  · decide
  · intro h
    have := h 0 ⟨330, some 0, "Demo"⟩ ⟨0, none, "Intro"⟩ (by decide) (by decide)
    simp at this

/-- C2 (amended): for every description, each derived chapter's
`end_time` equals the next chapter's `start_time` and the last chapter's
`end_time` is `none`; and the description with lines `0:00 Intro` and
`5:30 Demo` yields exactly the chapters `(0, some 330, "Intro")` and
`(330, none, "Demo")`.  (Start offsets are produced in line order and
are not sorted, so they need not be monotone; see the counterexample.) -/
theorem descChapters_spec (d : String) :
    (∀ i : ℕ, ∀ a b : Chapter, (descChapters d)[i]? = some a →
        (descChapters d)[i+1]? = some b → a.end_time = some b.start_time) ∧
    (∀ i : ℕ, ∀ a : Chapter, (descChapters d)[i]? = some a →
        (descChapters d)[i+1]? = none → a.end_time = none) ∧
    descChapters "0:00 Intro\n5:30 Demo" =
      [⟨0, some 330, "Intro"⟩, ⟨330, none, "Demo"⟩] := by
  refine ⟨?_, ?_, by decide⟩
  · intro i a b ha hb
    rw [descChapters, toChapterList_getElem?] at ha hb
    cases hli : (parse_chapters_from_description d)[i]? with
    | none => rw [hli] at ha; simp at ha
    | some c =>
      rw [hli] at ha
      cases hlj : (parse_chapters_from_description d)[i + 1]? with
      | none => rw [hlj] at hb; simp at hb
      | some c' =>
        rw [hlj] at ha hb
        simp only [Option.map_some', Option.some.injEq] at ha hb
        subst ha
        subst hb
        simp
  · intro i a ha hnext
    rw [descChapters, toChapterList_getElem?] at ha hnext
    cases hli : (parse_chapters_from_description d)[i]? with
    | none => rw [hli] at ha; simp at ha
    | some c =>
      rw [hli] at ha
      cases hlj : (parse_chapters_from_description d)[i + 1]? with
      | none =>
        rw [hlj] at ha
        simp only [Option.map_some', Option.map_none', Option.some.injEq] at ha
        subst ha
        simp
      | some c' => rw [hlj] at hnext; simp at hnext

/-- Witness for `descChapters_spec` at the example description. -/
theorem descChapters_spec_witness :
    (⟨0, some 330, "Intro"⟩ : Chapter).end_time =
      some (⟨330, none, "Demo"⟩ : Chapter).start_time ∧
    descChapters "0:00 Intro\n5:30 Demo" =
      [⟨0, some 330, "Intro"⟩, ⟨330, none, "Demo"⟩] :=
  ⟨(descChapters_spec "0:00 Intro\n5:30 Demo").1 0 _ _ (by decide) (by decide),
    (descChapters_spec "0:00 Intro\n5:30 Demo").2.2⟩

/-- C7: for every chat reply, the code-fence wrapping is stripped before
parsing, and when the stripped text does not parse as a JSON dictionary
the function returns the fallback record — summary holds the error
marker, and `raw_response` carries the text it tried to parse — instead
of raising.  Concrete fence examples are included. -/
theorem extract_insights_parse_failure (chat : String → Except String String)
    (loads : String → Option Json) (t : String) (vid : Option String)
    (content : String) (hok : chat t = Except.ok content)
    (hbad : ∀ fields, loads (cleanResponse content) ≠ some (Json.obj fields)) :
    extract_insights_from_transcript chat loads t vid =
      [("summary", Json.str "Failed to parse insights as JSON"),
       ("insights", Json.arr []),
       ("golden_nuggets", Json.arr []),
       ("video_id", jsonOfOpt vid),
       ("raw_response", Json.str (cleanResponse content))] ∧
    cleanResponse "```json\nX\n```" = "X" ∧
    cleanResponse "```\nX\n```" = "X" := by
  refine ⟨?_, by decide, by decide⟩
  simp only [extract_insights_from_transcript, hok]
  simp only [parseInsightResponse]
  cases hload : loads (cleanResponse content) with
  | none => simp [fallbackFields]
  | some j =>
    cases j with
    | obj fields => exact absurd hload (hbad fields)
    | null => simp [fallbackFields]
    | bool b => simp [fallbackFields]
    | num n => simp [fallbackFields]
    | str s => simp [fallbackFields]
    | arr xs => simp [fallbackFields]

/-- Witness for `extract_insights_parse_failure`: a reply that is not
JSON at all. -/
theorem extract_insights_parse_failure_witness :
    extract_insights_from_transcript (fun _ => Except.ok "not json")
        (fun _ => none) "" none =
      [("summary", Json.str "Failed to parse insights as JSON"),
       ("insights", Json.arr []),
       ("golden_nuggets", Json.arr []),
       ("video_id", jsonOfOpt none),
       ("raw_response", Json.str (cleanResponse "not json"))] ∧
    cleanResponse "```json\nX\n```" = "X" ∧
    cleanResponse "```\nX\n```" = "X" :=
  extract_insights_parse_failure (fun _ => Except.ok "not json") (fun _ => none)
    "" none "not json" rfl (fun fields h => by cases h)

/-- C8: parsing is idempotent on the extractor's own fallback record:
when the parser is fed a serialisation of the fallback dictionary (the
JSON codec recovering exactly that dictionary), the result carries the
same `summary`, `insights` and `golden_nuggets` values as the fallback
record itself. -/
theorem insight_parse_idempotent (loads : String → Option Json) (s raw : String)
    (vid vid' : Option String)
    (h : loads (cleanResponse s) = some (Json.obj (fallbackFields raw vid))) :
    dictGet (parseInsightResponse loads s vid') "summary" Json.null =
      dictGet (fallbackFields raw vid) "summary" Json.null ∧
    dictGet (parseInsightResponse loads s vid') "insights" Json.null =
      dictGet (fallbackFields raw vid) "insights" Json.null ∧
    dictGet (parseInsightResponse loads s vid') "golden_nuggets" Json.null =
      dictGet (fallbackFields raw vid) "golden_nuggets" Json.null := by
  simp only [parseInsightResponse]
  rw [h]
  refine ⟨?_, ?_, ?_⟩ <;> simp [fallbackFields, dictGet]

/-- Witness for `insight_parse_idempotent` with a one-entry JSON codec. -/
theorem insight_parse_idempotent_witness :
    dictGet (parseInsightResponse
        (fun u => if u = "x" then some (Json.obj (fallbackFields "r" none)) else none)
        "x" (some "v")) "summary" Json.null =
      dictGet (fallbackFields "r" none) "summary" Json.null ∧
    dictGet (parseInsightResponse
        (fun u => if u = "x" then some (Json.obj (fallbackFields "r" none)) else none)
        "x" (some "v")) "insights" Json.null =
      dictGet (fallbackFields "r" none) "insights" Json.null ∧
    dictGet (parseInsightResponse
        (fun u => if u = "x" then some (Json.obj (fallbackFields "r" none)) else none)
        "x" (some "v")) "golden_nuggets" Json.null =
      dictGet (fallbackFields "r" none) "golden_nuggets" Json.null :=
  insight_parse_idempotent
    (fun u => if u = "x" then some (Json.obj (fallbackFields "r" none)) else none)
    "x" "r" none (some "v") rfl

/-- C10: the extractor is total at its interface: for every transcript,
every chat-endpoint behaviour (any reply string or any raised
exception) and every behaviour of the JSON codec, the returned
dictionary contains the keys `summary`, `insights`, `golden_nuggets`
and `video_id`; no branch propagates an exception (every branch returns
a record). -/
theorem extract_insights_total (chat : String → Except String String)
    (loads : String → Option Json) (t : String) (vid : Option String) :
    hasKey (extract_insights_from_transcript chat loads t vid) "summary" = true ∧
    hasKey (extract_insights_from_transcript chat loads t vid) "insights" = true ∧
    hasKey (extract_insights_from_transcript chat loads t vid) "golden_nuggets" = true ∧
    hasKey (extract_insights_from_transcript chat loads t vid) "video_id" = true := by
  cases hchat : chat t with
  | error e =>
    simp only [extract_insights_from_transcript, hchat]
    refine ⟨?_, ?_, ?_, ?_⟩ <;> simp [hasKey]
  | ok content =>
    simp only [extract_insights_from_transcript, hchat, parseInsightResponse]
    cases hload : loads (cleanResponse content) with
    | none => refine ⟨?_, ?_, ?_, ?_⟩ <;> simp [hasKey, fallbackFields]
    | some j =>
      cases j <;> refine ⟨?_, ?_, ?_, ?_⟩ <;> simp [hasKey, fallbackFields]

lemma matchLine_mss (m s1 s2 : Char) (hm : m.isDigit = true)
    (h1 : s1.isDigit = true) (h2 : s2.isDigit = true) :
    matchLine [m, ':', s1, s2, ' ', 'T'] =
      some (dval m * 60 + (dval s1 * 10 + dval s2), ['T']) := by
  have hc : (':').isDigit = false := by decide
  simp [matchLine, timeCands, digitCands, twoDigits, hm, h1, h2, hc,
    sepTitle, wsRests, dashOpts, titleAt, firstSome, isPySpace, isDash]

lemma matchLine_hmmss (h m1 m2 s1 s2 : Char) (hh : h.isDigit = true)
    (hm1 : m1.isDigit = true) (hm2 : m2.isDigit = true)
    (hs1 : s1.isDigit = true) (hs2 : s2.isDigit = true) :
    matchLine [h, ':', m1, m2, ':', s1, s2, ' ', 'T'] =
      some (dval h * 3600 + (dval m1 * 10 + dval m2) * 60 + (dval s1 * 10 + dval s2), ['T']) := by
  have hc : (':').isDigit = false := by decide
  simp [matchLine, timeCands, digitCands, twoDigits, hh, hm1, hm2, hs1, hs2, hc,
    sepTitle, wsRests, dashOpts, titleAt, firstSome, isPySpace, isDash]

/-- C5: the chapter resolver tries the platform-native probe first and
returns its parsed value whenever the probe yields a nonempty,
non-`"None"`, parseable output; it falls back past the probe exactly
when the probe raised, its output was empty or `"None"`, or parsing
raised; the fallback uses the description scan's chapter list; and the
line scanner converts a leading `M:SS` token to `M*60+S` seconds and a
leading `H:MM:SS` token to `H*3600+M*60+S` seconds, followed by the
title. -/
theorem get_chapters_spec (loads : String → Option Json) (ytdlp : Except Unit String)
    (md : Option String) :
    (∀ out j, ytdlp = Except.ok out → pyStripStr out ≠ "" → pyStripStr out ≠ "None" →
        loads (pyStripStr out) = some j →
        get_chapters loads ytdlp md = ChaptersResult.native j) ∧
    ((∀ j, get_chapters loads ytdlp md ≠ ChaptersResult.native j) ↔
       ∀ out, ytdlp = Except.ok out →
         pyStripStr out = "" ∨ pyStripStr out = "None" ∨ loads (pyStripStr out) = none) ∧
    ((∀ out, ytdlp = Except.ok out →
        pyStripStr out = "" ∨ pyStripStr out = "None" ∨ loads (pyStripStr out) = none) →
      ∀ d, md = some d → descChapters d ≠ [] →
        get_chapters loads ytdlp md = ChaptersResult.fromDescription (descChapters d)) ∧
    (∀ m s1 s2 : Char, m.isDigit = true → s1.isDigit = true → s2.isDigit = true →
        matchLine [m, ':', s1, s2, ' ', 'T'] =
          some (dval m * 60 + (dval s1 * 10 + dval s2), ['T'])) ∧
    (∀ h m1 m2 s1 s2 : Char, h.isDigit = true → m1.isDigit = true → m2.isDigit = true →
        s1.isDigit = true → s2.isDigit = true →
        matchLine [h, ':', m1, m2, ':', s1, s2, ' ', 'T'] =
          some (dval h * 3600 + (dval m1 * 10 + dval m2) * 60 +
            (dval s1 * 10 + dval s2), ['T'])) := by
  have hnat : ∀ out j, ytdlp = Except.ok out → pyStripStr out ≠ "" →
      pyStripStr out ≠ "None" → loads (pyStripStr out) = some j →
      nativeProbe loads ytdlp = some j := by
    intro out j hok h1 h2 h3
    subst hok
    simp [nativeProbe, h1, h2, h3]
  refine ⟨?_, ?_, ?_, matchLine_mss, matchLine_hmmss⟩
  · intro out j hok h1 h2 h3
    rw [get_chapters.eq_def, hnat out j hok h1 h2 h3]
  · constructor
    · intro hno out hok
      subst hok
      by_cases h1 : pyStripStr out = ""
      · exact Or.inl h1
      by_cases h2 : pyStripStr out = "None"
      · exact Or.inr (Or.inl h2)
      cases h3 : loads (pyStripStr out) with
      | none => exact Or.inr (Or.inr rfl)
      | some j =>
        exfalso
        exact hno j (by rw [get_chapters.eq_def, hnat out j rfl h1 h2 h3])
    · intro hfail j hnative
      have hprobe : nativeProbe loads ytdlp = none := by
        cases hy : ytdlp with
        | error u => simp [nativeProbe]
        | ok out =>
          rcases hfail out hy with h1 | h2 | h3
          · simp [nativeProbe, h1]
          · simp [nativeProbe, h2]
          · by_cases hcond : pyStripStr out ≠ "" ∧ pyStripStr out ≠ "None"
            · simp [nativeProbe, hcond, h3]
            · simp only [nativeProbe]
              rw [if_neg hcond]
      rw [get_chapters.eq_def, hprobe] at hnative
      cases md with
      | none => simp at hnative
      | some d =>
        by_cases hemp : (descChapters d).isEmpty <;> simp [hemp] at hnative
  · intro hfail d hmd hne
    subst hmd
    have hprobe : nativeProbe loads ytdlp = none := by
      cases hy : ytdlp with
      | error u => simp [nativeProbe]
      | ok out =>
        rcases hfail out hy with h1 | h2 | h3
        · simp [nativeProbe, h1]
        · simp [nativeProbe, h2]
        · by_cases hcond : pyStripStr out ≠ "" ∧ pyStripStr out ≠ "None"
          · simp [nativeProbe, hcond, h3]
          · simp only [nativeProbe]
            rw [if_neg hcond]
    rw [get_chapters.eq_def, hprobe]
    simp [List.isEmpty_iff, hne]

/-- Witness for `get_chapters_spec`: a raising probe and the example
description, plus the `5:30` conversion. -/
theorem get_chapters_spec_witness :
    get_chapters (fun _ => none) (Except.error ()) (some "0:00 Intro\n5:30 Demo") =
      ChaptersResult.fromDescription (descChapters "0:00 Intro\n5:30 Demo") ∧
    matchLine ['5', ':', '3', '0', ' ', 'T'] = some (330, ['T']) := by
  have h := get_chapters_spec (fun _ => none) (Except.error ())
    (some "0:00 Intro\n5:30 Demo")
  refine ⟨h.2.2.1 (fun out hout => by cases hout) _ rfl (by decide), ?_⟩
  have hconv := h.2.2.2.1 '5' '3' '0' (by decide) (by decide) (by decide)
  have e : dval '5' * 60 + (dval '3' * 10 + dval '0') = 330 := by decide
  rw [e] at hconv
  exact hconv

/-- C6: transcription returns one entry per chunk file, in order: the
result has the same length as the input, a chunk whose transcription
succeeds contributes its text at the same position, and a chunk whose
transcription raises contributes the empty string at the same position
(no exception escapes, no sibling is disturbed). -/
theorem transcribe_audio_chunks_spec (transcribe : String → Except String String)
    (chunk_files : List String) :
    (transcribe_audio_chunks transcribe chunk_files).length = chunk_files.length ∧
    (∀ i : ℕ, ∀ p t : String, chunk_files[i]? = some p →
        transcribe p = Except.ok t →
        (transcribe_audio_chunks transcribe chunk_files)[i]? = some t) ∧
    (∀ i : ℕ, ∀ p e : String, chunk_files[i]? = some p →
        transcribe p = Except.error e →
        (transcribe_audio_chunks transcribe chunk_files)[i]? = some "") := by
  refine ⟨by simp [transcribe_audio_chunks], ?_, ?_⟩
  · intro i p t hp ht
    simp [transcribe_audio_chunks, List.getElem?_map, hp, ht]
  · intro i p e hp he
    simp [transcribe_audio_chunks, List.getElem?_map, hp, he]

/-- Witness for `transcribe_audio_chunks_spec`: two chunks, the second
one failing. -/
theorem transcribe_audio_chunks_spec_witness :
    (transcribe_audio_chunks
        (fun p => if p = "a.mp3" then Except.ok "T" else Except.error "boom")
        ["a.mp3", "b.mp3"])[0]? = some "T" ∧
    (transcribe_audio_chunks
        (fun p => if p = "a.mp3" then Except.ok "T" else Except.error "boom")
        ["a.mp3", "b.mp3"])[1]? = some "" :=
  ⟨(transcribe_audio_chunks_spec
      (fun p => if p = "a.mp3" then Except.ok "T" else Except.error "boom")
      ["a.mp3", "b.mp3"]).2.1 0 "a.mp3" "T" rfl rfl,
   (transcribe_audio_chunks_spec
      (fun p => if p = "a.mp3" then Except.ok "T" else Except.error "boom")
      ["a.mp3", "b.mp3"]).2.2 1 "b.mp3" "boom" rfl rfl⟩

lemma downloadStep_pass (env : StageEnv) (force : Bool) (r : RunResult)
    (h : env.downloadOk = true ∨ (!env.audioExists || force) = false) :
    ∃ s, downloadStep env force r =
      splitStep env force ⟨r.status, r.steps ++ [("download", s)], r.errors⟩ := by
  cases hb : (!env.audioExists || force) with
  | false => exact ⟨"skipped", by simp [downloadStep, hb]⟩
  | true =>
    rcases h with h | h
    · exact ⟨"success", by simp [downloadStep, hb, h]⟩
    · rw [h] at hb; cases hb

lemma downloadStep_error (env : StageEnv) (force : Bool) (r : RunResult)
    (hg : (!env.audioExists || force) = true) (he : env.downloadOk = false) :
    downloadStep env force r =
      ⟨"failed", r.steps ++ [("download", "failed")],
        r.errors ++ ["Failed to download audio"]⟩ := by
  simp [downloadStep, hg, he]

lemma splitStep_pass (env : StageEnv) (force : Bool) (r : RunResult)
    (h : (env.chunkFilesExist && env.chunkMetadataExists && !force) = true ∨
      ∃ fs, env.splitResult = Except.ok fs) :
    ∃ s, splitStep env force r =
      transcribeStep env force ⟨r.status, r.steps ++ [("split", s)], r.errors⟩ := by
  cases hb : (env.chunkFilesExist && env.chunkMetadataExists && !force) with
  | true => exact ⟨"skipped", by simp [splitStep, hb]⟩
  | false =>
    rcases h with h | ⟨fs, h⟩
    · rw [h] at hb; cases hb
    · exact ⟨"success", by simp [splitStep, hb, h]⟩

lemma splitStep_error (env : StageEnv) (force : Bool) (r : RunResult) (e : String)
    (hg : (env.chunkFilesExist && env.chunkMetadataExists && !force) = false)
    (he : env.splitResult = Except.error e) :
    splitStep env force r =
      ⟨"failed", r.steps ++ [("split", "failed")],
        r.errors ++ ["Failed to split audio: " ++ e]⟩ := by
  simp [splitStep, hg, he]

lemma transcribeStep_pass (env : StageEnv) (force : Bool) (r : RunResult)
    (h : (env.chunkTranscriptsDirExists && env.existingTranscriptsExist && !force) = true ∨
      ∃ ts, env.transcribeResult = Except.ok ts) :
    ∃ s, transcribeStep env force r =
      assembleStep env force ⟨r.status, r.steps ++ [("transcribe", s)], r.errors⟩ := by
  cases hb : (env.chunkTranscriptsDirExists && env.existingTranscriptsExist && !force) with
  | true => exact ⟨"skipped", by simp [transcribeStep, hb]⟩
  | false =>
    rcases h with h | ⟨ts, h⟩
    · rw [h] at hb; cases hb
    · exact ⟨"success", by simp [transcribeStep, hb, h]⟩

lemma transcribeStep_error (env : StageEnv) (force : Bool) (r : RunResult) (e : String)
    (hg : (env.chunkTranscriptsDirExists && env.existingTranscriptsExist && !force) = false)
    (he : env.transcribeResult = Except.error e) :
    transcribeStep env force r =
      ⟨"failed", r.steps ++ [("transcribe", "failed")],
        r.errors ++ ["Failed to transcribe: " ++ e]⟩ := by
  simp [transcribeStep, hg, he]

lemma assembleStep_pass (env : StageEnv) (force : Bool) (r : RunResult)
    (h : (env.transcriptExists && !force) = true ∨
      ∃ t, env.assembleResult = Except.ok t) :
    ∃ s, assembleStep env force r =
      insightsStep env force ⟨r.status, r.steps ++ [("assemble", s)], r.errors⟩ := by
  cases hb : (env.transcriptExists && !force) with
  | true => exact ⟨"skipped", by simp [assembleStep, hb]⟩
  | false =>
    rcases h with h | ⟨t, h⟩
    · rw [h] at hb; cases hb
    · exact ⟨"success", by simp [assembleStep, hb, h]⟩

lemma assembleStep_error (env : StageEnv) (force : Bool) (r : RunResult) (e : String)
    (hg : (env.transcriptExists && !force) = false)
    (he : env.assembleResult = Except.error e) :
    assembleStep env force r =
      ⟨"failed", r.steps ++ [("assemble", "failed")],
        r.errors ++ ["Failed to assemble transcript: " ++ e]⟩ := by
  simp [assembleStep, hg, he]

lemma insightsStep_error (env : StageEnv) (force : Bool) (r : RunResult) (e : String)
    (hg : (env.insightsExist && !force) = false)
    (he : env.insightsResult = Except.error e) :
    insightsStep env force r =
      ⟨"completed", r.steps ++ [("insights", "failed")],
        r.errors ++ ["Failed to extract insights: " ++ e]⟩ := by
  simp [insightsStep, hg, he]

/-- C4: failure policy of `process_single_video`.  A failing download,
split, transcription or assembly sets the video's status to `failed`
and returns at once (no later stage leaves an entry in `steps`); a
failing insight extraction only records the error and the video still
ends with status `completed`. -/
theorem process_single_video_failure_policy (env : StageEnv) (force : Bool) :
    (((!env.audioExists || force) = true ∧ env.downloadOk = false) →
      (process_single_video env force).status = "failed" ∧
      List.lookup "split" (process_single_video env force).steps = none ∧
      List.lookup "transcribe" (process_single_video env force).steps = none ∧
      List.lookup "assemble" (process_single_video env force).steps = none ∧
      List.lookup "insights" (process_single_video env force).steps = none ∧
      "Failed to download audio" ∈ (process_single_video env force).errors) ∧
    (∀ e : String,
      (env.downloadOk = true ∨ (!env.audioExists || force) = false) →
      (env.chunkFilesExist && env.chunkMetadataExists && !force) = false →
      env.splitResult = Except.error e →
      (process_single_video env force).status = "failed" ∧
      List.lookup "transcribe" (process_single_video env force).steps = none ∧
      List.lookup "assemble" (process_single_video env force).steps = none ∧
      List.lookup "insights" (process_single_video env force).steps = none ∧
      ("Failed to split audio: " ++ e) ∈ (process_single_video env force).errors) ∧
    (∀ e : String,
      (env.downloadOk = true ∨ (!env.audioExists || force) = false) →
      ((env.chunkFilesExist && env.chunkMetadataExists && !force) = true ∨
        ∃ fs, env.splitResult = Except.ok fs) →
      (env.chunkTranscriptsDirExists && env.existingTranscriptsExist && !force) = false →
      env.transcribeResult = Except.error e →
      (process_single_video env force).status = "failed" ∧
      List.lookup "assemble" (process_single_video env force).steps = none ∧
      List.lookup "insights" (process_single_video env force).steps = none ∧
      ("Failed to transcribe: " ++ e) ∈ (process_single_video env force).errors) ∧
    (∀ e : String,
      (env.downloadOk = true ∨ (!env.audioExists || force) = false) →
      ((env.chunkFilesExist && env.chunkMetadataExists && !force) = true ∨
        ∃ fs, env.splitResult = Except.ok fs) →
      ((env.chunkTranscriptsDirExists && env.existingTranscriptsExist && !force) = true ∨
        ∃ ts, env.transcribeResult = Except.ok ts) →
      (env.transcriptExists && !force) = false →
      env.assembleResult = Except.error e →
      (process_single_video env force).status = "failed" ∧
      List.lookup "insights" (process_single_video env force).steps = none ∧
      ("Failed to assemble transcript: " ++ e) ∈ (process_single_video env force).errors) ∧
    (∀ e : String,
      (env.downloadOk = true ∨ (!env.audioExists || force) = false) →
      ((env.chunkFilesExist && env.chunkMetadataExists && !force) = true ∨
        ∃ fs, env.splitResult = Except.ok fs) →
      ((env.chunkTranscriptsDirExists && env.existingTranscriptsExist && !force) = true ∨
        ∃ ts, env.transcribeResult = Except.ok ts) →
      ((env.transcriptExists && !force) = true ∨
        ∃ t, env.assembleResult = Except.ok t) →
      (env.insightsExist && !force) = false →
      env.insightsResult = Except.error e →
      (process_single_video env force).status = "completed" ∧
      ("insights", "failed") ∈ (process_single_video env force).steps ∧
      ("Failed to extract insights: " ++ e) ∈ (process_single_video env force).errors) := by
  refine ⟨?_, ?_, ?_, ?_, ?_⟩
  · intro ⟨hg, he⟩
    rw [process_single_video, downloadStep_error env force _ hg he]
    refine ⟨rfl, ?_, ?_, ?_, ?_, ?_⟩ <;> simp [List.lookup]
  · intro e hdl hg he
    obtain ⟨s1, h1⟩ := downloadStep_pass env force ⟨"processing", [], []⟩ hdl
    rw [process_single_video, h1, splitStep_error env force _ e hg he]
    refine ⟨rfl, ?_, ?_, ?_, ?_⟩ <;> simp [List.lookup]
  · intro e hdl hsp hg he
    obtain ⟨s1, h1⟩ := downloadStep_pass env force ⟨"processing", [], []⟩ hdl
    obtain ⟨s2, h2⟩ := splitStep_pass env force _ hsp
    rw [process_single_video, h1, h2, transcribeStep_error env force _ e hg he]
    refine ⟨rfl, ?_, ?_, ?_⟩ <;> simp [List.lookup]
  · intro e hdl hsp htr hg he
    obtain ⟨s1, h1⟩ := downloadStep_pass env force ⟨"processing", [], []⟩ hdl
    obtain ⟨s2, h2⟩ := splitStep_pass env force _ hsp
    obtain ⟨s3, h3⟩ := transcribeStep_pass env force _ htr
    rw [process_single_video, h1, h2, h3, assembleStep_error env force _ e hg he]
    refine ⟨rfl, ?_, ?_⟩ <;> simp [List.lookup]
  · intro e hdl hsp htr has hg he
    obtain ⟨s1, h1⟩ := downloadStep_pass env force ⟨"processing", [], []⟩ hdl
    obtain ⟨s2, h2⟩ := splitStep_pass env force _ hsp
    obtain ⟨s3, h3⟩ := transcribeStep_pass env force _ htr
    obtain ⟨s4, h4⟩ := assembleStep_pass env force _ has
    rw [process_single_video, h1, h2, h3, h4, insightsStep_error env force _ e hg he]
    refine ⟨rfl, ?_, ?_⟩ <;> simp

/-- Witness for `process_single_video_failure_policy`: a run whose only
failure is insight extraction completes, and a run with a failing
download fails. -/
theorem process_single_video_failure_policy_witness :
    ((process_single_video
        ⟨true, true, true, true, Except.ok [], true, true, Except.ok [],
          true, Except.ok "", false, Except.error "quota"⟩ false).status = "completed" ∧
      ("insights", "failed") ∈ (process_single_video
        ⟨true, true, true, true, Except.ok [], true, true, Except.ok [],
          true, Except.ok "", false, Except.error "quota"⟩ false).steps ∧
      ("Failed to extract insights: " ++ "quota") ∈ (process_single_video
        ⟨true, true, true, true, Except.ok [], true, true, Except.ok [],
          true, Except.ok "", false, Except.error "quota"⟩ false).errors) ∧
    (process_single_video
        ⟨false, false, false, false, Except.error "x", false, false, Except.error "x",
          false, Except.error "x", false, Except.error "x"⟩ false).status = "failed" :=
  ⟨(process_single_video_failure_policy
      ⟨true, true, true, true, Except.ok [], true, true, Except.ok [],
        true, Except.ok "", false, Except.error "quota"⟩ false).2.2.2.2 "quota"
      (Or.inl rfl) (Or.inl rfl) (Or.inl rfl) (Or.inl rfl) rfl rfl,
   ((process_single_video_failure_policy
      ⟨false, false, false, false, Except.error "x", false, false, Except.error "x",
        false, Except.error "x", false, Except.error "x"⟩ false).1 ⟨rfl, rfl⟩).1⟩

/-- C3 counterexample: segment files and the chunk-metadata JSON both
exist for video `v` (the segments are chapter-named), the force flag is
false, yet the split stage is not skipped: it re-runs and performs a
subprocess call, because the skip guard's glob only matches
`_chunk_`-named files. -/
theorem split_skip_counterexample :
    fileExists chapterOnlyState.files "data/audio_chunks/v/v_chapter_0_intro.mp3" = true ∧
    fileExists chapterOnlyState.files (chunkMetaPath "v") = true ∧
    (splitStage sampleWorld "v" false chapterOnlyState).2 = "ran" ∧
    (splitStage sampleWorld "v" false chapterOnlyState).1.effs =
      [Eff.subproc "yt-dlp --print chapters_json"] := by
  refine ⟨?_, ?_, ?_, ?_⟩ <;> decide

/-- C3 (amended): each stage's skip guard, satisfied with the force
flag false, leaves the whole state untouched — files byte-identical, no
directory created, no subprocess or network effect.  For the split and
transcribe stages the guard requires `_chunk_`-named artifacts (the
fixed-length naming); chapter-named segment files do not satisfy it
(see the counterexample). -/
theorem pipeline_skip_frame (w : ExtWorld) (vid : String) (st : FSState) :
    (fileExists st.files (audioPath vid) = true →
      downloadStage w vid false st = (st, "skipped")) ∧
    (chunksDirOf vid ∈ st.dirs → (chunkGlob st.files vid).isEmpty = false →
      fileExists st.files (chunkMetaPath vid) = true →
      splitStage w vid false st = (st, "skipped")) ∧
    (st.dirs.contains (ctDirOf vid) = true → (txtGlob st.files vid).isEmpty = false →
      transcribeStage vid false st = (st, "skipped")) ∧
    (fileExists st.files (transcriptPath vid) = true →
      assembleStage w vid false st = (st, "skipped")) ∧
    (fileExists st.files (insightsPath vid) = true →
      insightsStage w vid false st = (st, "skipped")) := by
  refine ⟨?_, ?_, ?_, ?_, ?_⟩
  · intro h
    simp [downloadStage, h]
  · intro hdir hglob hmeta
    have hmk : mkdirP st.dirs (chunksDirOf vid) = st.dirs := by
      simp [mkdirP, hdir]
    simp [splitStage, hmk, hglob, hmeta]
  · intro hdir htxt
    simp [transcribeStage, hdir, htxt]
    simpa using hdir
  · intro h
    simp [assembleStage, h]
  · intro h
    simp [insightsStage, h]

/-- Witness for `pipeline_skip_frame`: with every artifact present, all
five stages skip and leave the state untouched. -/
theorem pipeline_skip_frame_witness :
    downloadStage sampleWorld "v" false allArtifactsState = (allArtifactsState, "skipped") ∧
    splitStage sampleWorld "v" false allArtifactsState = (allArtifactsState, "skipped") ∧
    transcribeStage "v" false allArtifactsState = (allArtifactsState, "skipped") ∧
    assembleStage sampleWorld "v" false allArtifactsState = (allArtifactsState, "skipped") ∧
    insightsStage sampleWorld "v" false allArtifactsState = (allArtifactsState, "skipped") :=
  ⟨(pipeline_skip_frame sampleWorld "v" allArtifactsState).1 (by decide),
   (pipeline_skip_frame sampleWorld "v" allArtifactsState).2.1 (by decide) (by decide) (by decide),
   (pipeline_skip_frame sampleWorld "v" allArtifactsState).2.2.1 (by decide) (by decide),
   (pipeline_skip_frame sampleWorld "v" allArtifactsState).2.2.2.1 (by decide),
   (pipeline_skip_frame sampleWorld "v" allArtifactsState).2.2.2.2 (by decide)⟩

end YCIE
